import Mathlib

/-!
Shallow embedding of the DataMind sales-analysis pipeline
(`data_preprocessor.py`, `model_trainer.py`, and the encoding derivations in
`main.py` / `app.py`), together with theorems settling the frozen claims
about it.

Modelling conventions:
* a pandas `DataFrame` is a `Frame`: per-column presence flags plus an
  ordered list of `Row`s;
* a cell of the `日期` (date) column is a `DateVal`: `invalid` stands for any
  raw string that fails to parse with format `%m/%d/%Y` (pandas coerces it to
  `NaT`, and `NaT` re-coerces to `NaT`), `ts m d y` stands for a parsed
  datetime;
* a cell of the `销售额` (sales) column is `Option ℚ` (`none` = `NaN`);
* machine floats are modelled as exact rationals: every claim under test is
  about ordering, filtering and exact small arithmetic, not rounding of
  binary floats.
-/

namespace DataMind

/-- A value of the `日期` (date) column: either a cell that fails to parse with
format `%m/%d/%Y` (coerced to `NaT` by `pd.to_datetime(..., errors="coerce")`)
or a parsed datetime with month/day/year fields. -/
inductive DateVal where
  | invalid : DateVal
  | ts (month day year : ℕ) : DateVal
deriving DecidableEq, Repr

/-- One record of the dataset: date, product id, sales amount (may be missing)
and region label, mirroring the columns 日期 / 产品ID / 销售额 / 区域. -/
structure Row where
  date : DateVal
  productId : String
  sales : Option ℚ
  region : String
deriving DecidableEq, Repr

/-- A DataFrame: which of the optional columns are present, plus the rows.
`preprocess_data` guards each stage on column presence (`"区域" in df.columns`
etc.), which the flags model; `产品ID` is only ever used inside the
sales-guarded stage, so it needs no flag of its own. -/
structure Frame where
  hasDate : Bool
  hasSales : Bool
  hasRegion : Bool
  rows : List Row
deriving DecidableEq, Repr

instance : Inhabited Frame := ⟨⟨false, false, false, []⟩⟩

/-- The fixed Chinese→English region lookup of `preprocess_data`
(`region_mapping`); labels outside the table pass through unchanged
(`lambda x: region_mapping.get(x, x)`). -/
def region_mapping (x : String) : String :=
  if x = "华北" then "North"
  else if x = "华东" then "East"
  else if x = "华南" then "South"
  else if x = "西北" then "Northwest"
  else if x = "西南" then "Southwest"
  else if x = "东北" then "Northeast"
  else if x = "中部" then "Central"
  else x

/-- Stage 1 of `preprocess_data`: `df_clean["区域"] = df_clean["区域"].map(...)`,
run only when the 区域 column is present. -/
def regionStage (df : Frame) : Frame :=
  if df.hasRegion = true then
    { df with rows := df.rows.map fun r => { r with region := region_mapping r.region } }
  else df

/-- The non-missing sales values of the rows of `rows` sharing product id
`pid` — the values over which pandas computes the group mean `x.mean()`
(mean skips `NaN`). -/
def groupVals (rows : List Row) (pid : String) : List ℚ :=
  (rows.filter fun r => r.productId == pid).filterMap Row.sales

/-- Arithmetic mean of a list of rationals (junk value `0` on the empty list;
callers guard against emptiness). -/
def mean (xs : List ℚ) : ℚ := xs.sum / xs.length

/-- The action of `x.fillna(x.mean())` on one row: a present value is kept; a
missing value is filled with the mean of the non-missing values of its
product group, computed from the full row list `rows`; if the whole group is
missing, the mean is `NaN` and `fillna(NaN)` leaves the cell missing. -/
def fillRow (rows : List Row) (r : Row) : Row :=
  match r.sales with
  | some _ => r
  | none =>
      let vals := groupVals rows r.productId
      if vals.isEmpty then r else { r with sales := some (mean vals) }

/-- Number of missing sales cells, `df_clean["销售额"].isnull().sum()`. -/
def countMissing (rows : List Row) : ℕ := rows.countP fun r => r.sales.isNone

/-- Stage 2 of `preprocess_data`: group-mean imputation via
`groupby("产品ID")["销售额"].transform(lambda x: x.fillna(x.mean()))`, run only
when the 销售额 column is present and some value is missing. -/
def imputeStage (df : Frame) : Frame :=
  if df.hasSales = true ∧ 0 < countMissing df.rows then
    { df with rows := df.rows.map (fillRow df.rows) }
  else df

/-- The action of `pd.to_datetime(col, format="%m/%d/%Y", errors="coerce")` on
one cell: a failed parse is coerced to `NaT` (still `invalid`); an
already-parsed datetime passes through unchanged. -/
def toDatetime : DateVal → DateVal
  | .invalid => .invalid
  | .ts m d y => .ts m d y

/-- Whether a date cell is non-`NaT` (survives `dropna(subset=["日期"])`). -/
def isValidDate : DateVal → Bool
  | .invalid => false
  | .ts _ _ _ => true

/-- The in-place column write `df_clean["日期"] = pd.to_datetime(...)` of
stage 3, guarded on column presence. -/
def dateAssignFrame (df : Frame) : Frame :=
  if df.hasDate = true then
    { df with rows := df.rows.map fun r => { r with date := toDatetime r.date } }
  else df

/-- The row drop `df_clean = df_clean.dropna(subset=["日期"])` of stage 3,
guarded on column presence. -/
def dropnaDateFrame (df : Frame) : Frame :=
  if df.hasDate = true then
    { df with rows := df.rows.filter fun r => isValidDate r.date }
  else df

/-- Stage 3 of `preprocess_data`: parse dates and drop rows whose date fails
to parse. -/
def dateStage (df : Frame) : Frame := dropnaDateFrame (dateAssignFrame df)

/-- The boolean mask `df_clean["销售额"] >= 0` on one row: in pandas a `NaN`
cell compares as `False`, so a still-missing sales value fails the mask. -/
def salesGe0 (r : Row) : Bool :=
  match r.sales with
  | some v => decide (0 ≤ v)
  | none => false

/-- Linear-interpolation quantile of a list of rationals, the default
`Series.quantile` method of pandas: on the ascending sorted values `s` of
length `n`, the quantile at `q` sits at position `q·(n−1)` and interpolates
linearly between the two neighbouring order statistics. Junk value `0` on the
empty list (pandas yields `NaN` there; every use below filters over a list
that is empty whenever this one is, so the junk value is never compared). -/
def quantile (xs : List ℚ) (q : ℚ) : ℚ :=
  let s := List.insertionSort (· ≤ ·) xs
  if s.isEmpty then 0
  else
    let pos : ℚ := q * ((s.length : ℚ) - 1)
    let i : ℕ := (⌊pos⌋).toNat
    let lo := s.getD i 0
    let hi := s.getD (i + 1) lo
    lo + (pos - (i : ℚ)) * (hi - lo)

/-- Part (a) of stage 4 of `preprocess_data`:
`df_clean = df_clean[df_clean["销售额"] >= 0]`, guarded on column presence. -/
def negFilter (df : Frame) : Frame :=
  if df.hasSales = true then
    { df with rows := df.rows.filter salesGe0 }
  else df

/-- Part (b) of stage 4 of `preprocess_data`: compute `Q1`, `Q3`, `IQR` over
the (current) 销售额 column and keep the rows inside
`[Q1 − 1.5·IQR, Q3 + 1.5·IQR]`; a missing cell compares as `False` on both
sides. `Series.quantile` skips `NaN`, hence the `filterMap`. -/
def iqrFilter (df : Frame) : Frame :=
  if df.hasSales = true then
    let vals := df.rows.filterMap Row.sales
    let q1 := quantile vals (1/4)
    let q3 := quantile vals (3/4)
    let iqr := q3 - q1
    { df with rows := df.rows.filter fun r =>
        match r.sales with
        | some v => decide (q1 - 3/2 * iqr ≤ v ∧ v ≤ q3 + 3/2 * iqr)
        | none => false }
  else df

/-- Stage 4 of `preprocess_data`: drop negative sales first, then apply the
IQR fence computed over the remaining rows. -/
def outlierStage (df : Frame) : Frame := iqrFilter (negFilter df)

/-- The full cleaning pipeline `preprocess_data` (`data_preprocessor.py`):
region normalization → missing-value imputation → date standardization →
outlier cleaning, each stage guarded on its column. -/
def preprocess_data (df : Frame) : Frame :=
  outlierStage (dateStage (imputeStage (regionStage df)))

/-! ### Feature engineering and temporal split (`model_trainer.py`) -/

/-- Day-of-month of a date cell (`df_model["日期"].dt.day`); junk value `0` on
`NaT` (cleaned frames contain no `NaT`). -/
def dayOfDate : DateVal → ℕ
  | .invalid => 0
  | .ts _ d _ => d

/-- The distinct values of a column in first-appearance order — the `uniques`
half of `pd.factorize`. -/
def firstAppearance (xs : List String) : List String :=
  xs.foldl (fun acc x => if x ∈ acc then acc else acc ++ [x]) []

/-- The code `pd.factorize` assigns to value `v` of a column `xs`: the index
of `v` in the first-appearance list of distinct values. -/
def catCode (xs : List String) (v : String) : ℕ :=
  (firstAppearance xs).indexOf v

/-- A model feature row: `日序` (day of month), `区域编码` (region code),
`产品编码` (product code). -/
structure FeatureRow where
  day : ℕ
  areaCode : ℕ
  prodCode : ℕ
deriving DecidableEq, Repr

/-- The feature rows `prepare_model_data` derives, one per input row, with the
region and product codes factorized over the full frame. -/
def featureRows (df : Frame) : List FeatureRow :=
  let regions := df.rows.map Row.region
  let prods := df.rows.map Row.productId
  df.rows.map fun r =>
    ⟨dayOfDate r.date, catCode regions r.region, catCode prods r.productId⟩

/-- The label column `销售额` aligned with `featureRows` (junk value `0` for a
missing cell; cleaned frames have none). -/
def labels (df : Frame) : List ℚ := df.rows.map fun r => r.sales.getD 0

/-- The four return values of `prepare_model_data`. -/
structure Split where
  XTrain : List FeatureRow
  yTrain : List ℚ
  XTest : List FeatureRow
  yTest : List ℚ
deriving DecidableEq, Repr

/-- The Feature/Split Builder `prepare_model_data` (`model_trainer.py`):
derive features, then split by the masks `日序 <= 20` / `日序 > 20`. The
source performs no emptiness check and raises no error: it always returns the
(possibly empty) split. -/
def prepare_model_data (df : Frame) : Split :=
  let pairs := (featureRows df).zip (labels df)
  let train := pairs.filter fun p => decide (p.1.day ≤ 20)
  let test := pairs.filter fun p => decide (20 < p.1.day)
  ⟨train.map Prod.fst, train.map Prod.snd, test.map Prod.fst, test.map Prod.snd⟩

/-! ### Forecasting (`predict_nov_sales`) -/

/-- The error surface of `predict_nov_sales` as the code stands.
`valueErrorLengthMismatch` is the pandas `ValueError: All arrays must be of
the same length` raised by the `pd.DataFrame({...})` constructor when the
column arrays differ in length. `insufficientCodesError` is the error kind
named by the specification; the repository defines no such exception and
never raises it — the constructor exists only so the spec's claim about it
can be stated and compared with what the code does. -/
inductive PipeError where
  | valueErrorLengthMismatch : PipeError
  | insufficientCodesError : PipeError
deriving DecidableEq, Repr

/-- One output row of `predict_nov_sales`: 日序, 区域编码, 产品编码 and the
rounded predicted amount. -/
structure ForecastRow where
  day : ℕ
  areaCode : ℕ
  prodCode : ℕ
  predictedAmount : ℚ
deriving DecidableEq, Repr

/-- Round-half-even to an integer, the behaviour of `np.round`. -/
def roundHalfEven (x : ℚ) : ℤ :=
  let f := ⌊x⌋
  let r := x - f
  if r < 1/2 then f
  else if 1/2 < r then f + 1
  else if f % 2 = 0 then f else f + 1

/-- `np.round(x, 2)`: round-half-even at two decimal places. -/
def round2 (x : ℚ) : ℚ := (roundHalfEven (100 * x) : ℚ) / 100

/-- The forecasting operation `predict_nov_sales` (`model_trainer.py`). The
trained model is abstracted to its `predict` function on a single feature
row. The source builds `pd.DataFrame({"日序": [1..5], "区域编码":
area_codes[:5], "产品编码": product_codes[:5]})`; when either truncated code
list is shorter than the 5-element day list, the DataFrame constructor raises
the pandas length-mismatch `ValueError` — there is no dedicated
insufficient-codes check. Otherwise it predicts each synthetic row and rounds
to 2 decimals. -/
def predict_nov_sales (model : FeatureRow → ℚ) (areaCodes productCodes : List ℕ) :
    Except PipeError (List ForecastRow) :=
  let novDays : List ℕ := [1, 2, 3, 4, 5]
  let a := areaCodes.take novDays.length
  let p := productCodes.take novDays.length
  if a.length = novDays.length ∧ p.length = novDays.length then
    .ok ((novDays.zip (a.zip p)).map fun t =>
      ⟨t.1, t.2.1, t.2.2, round2 (model ⟨t.1, t.2.1, t.2.2⟩)⟩)
  else .error .valueErrorLengthMismatch

/-! ### The driver's independent encoding derivations (`main.py` / `app.py`)

`main.py` lines 47–50 and `app.py` lines 100–101 re-run `pd.factorize` on the
same cleaned columns to obtain the code lists passed to `predict_nov_sales`;
the assignment of that factorization is `v ↦ uniques.indexOf v` over the
first-appearance `uniques` list. -/

/-- The `uniques` of `pd.factorize(df_clean["区域"])` computed by the driver. -/
def mainAreaUniques (df : Frame) : List String :=
  firstAppearance (df.rows.map Row.region)

/-- The `uniques` of `pd.factorize(df_clean["产品ID"])` computed by the
driver. -/
def mainProdUniques (df : Frame) : List String :=
  firstAppearance (df.rows.map Row.productId)

/-! ### Heap model of `preprocess_data` for the no-in-place-mutation claim

Python variables are references into a heap of DataFrame objects. The body of
`preprocess_data` is replayed operation by operation: `df.copy()` allocates a
fresh object; each `df_clean[col] = ...` writes in place to the object
`df_clean` refers to; each `df_clean = df_clean[mask]` / `.dropna(...)`
allocates a fresh filtered object and rebinds the local name. The caller's
`df` reference is never written. -/

/-- Read a heap cell (junk empty frame out of range). -/
def hGet (h : List Frame) (i : ℕ) : Frame := h.getD i default

/-- Overwrite a heap cell in place. -/
def hSet (h : List Frame) (i : ℕ) (f : Frame) : List Frame := h.set i f

/-- Allocate a fresh object, returning the new heap and the new reference. -/
def alloc (h : List Frame) (f : Frame) : List Frame × ℕ := (h ++ [f], h.length)

/-- `preprocess_data` replayed over the heap, given the caller's reference
`df`: copy, three in-place column writes (stages 1–3a), then three
filter/dropna rebindings (stages 3b, 4a, 4b). Returns the final heap and the
reference to the returned frame. -/
def preprocessProg (h0 : List Frame) (df : ℕ) : List Frame × ℕ :=
  let p1 := alloc h0 (hGet h0 df)
  let h1 := p1.1
  let c := p1.2
  let h2 := hSet h1 c (regionStage (hGet h1 c))
  let h3 := hSet h2 c (imputeStage (hGet h2 c))
  let h4 := hSet h3 c (dateAssignFrame (hGet h3 c))
  let p2 := alloc h4 (dropnaDateFrame (hGet h4 c))
  let p3 := alloc p2.1 (negFilter (hGet p2.1 p2.2))
  let p4 := alloc p3.1 (iqrFilter (hGet p3.1 p3.2))
  (p4.1, p4.2)

/-! ### Helper lemmas -/

/-- Splitting a list by a predicate and its negation accounts for every
element. -/
theorem length_filter_split {α : Type} (l : List α) (p q : α → Bool)
    (hpq : ∀ a, q a = !(p a)) :
    (l.filter p).length + (l.filter q).length = l.length := by
  induction l with
  | nil => rfl
  | cons a t ih =>
      by_cases hpa : p a = true
      · simp [List.filter_cons, hpa, hpq a, ih]
        omega
      · simp only [Bool.not_eq_true] at hpa
        simp [List.filter_cons, hpa, hpq a, ih]
        omega

/-- No cleaning stage touches the column-presence flags. -/
theorem stage_flags (df : Frame) :
    (regionStage df).hasDate = df.hasDate ∧
    (regionStage df).hasSales = df.hasSales ∧
    (regionStage df).hasRegion = df.hasRegion ∧
    (imputeStage df).hasDate = df.hasDate ∧
    (imputeStage df).hasSales = df.hasSales ∧
    (imputeStage df).hasRegion = df.hasRegion ∧
    (dateStage df).hasDate = df.hasDate ∧
    (dateStage df).hasSales = df.hasSales ∧
    (dateStage df).hasRegion = df.hasRegion ∧
    (negFilter df).hasDate = df.hasDate ∧
    (negFilter df).hasSales = df.hasSales ∧
    (negFilter df).hasRegion = df.hasRegion ∧
    (iqrFilter df).hasDate = df.hasDate ∧
    (iqrFilter df).hasSales = df.hasSales ∧
    (iqrFilter df).hasRegion = df.hasRegion := by
  unfold regionStage imputeStage dateStage dateAssignFrame dropnaDateFrame
    negFilter iqrFilter
  refine ⟨?_, ?_, ?_, ?_, ?_, ?_, ?_, ?_, ?_, ?_, ?_, ?_, ?_, ?_, ?_⟩ <;>
    (repeat' split) <;> rfl

/-- `toDatetime` fixes every date cell: a failed parse re-coerces to `NaT`
and an already-parsed datetime passes through. -/
theorem toDatetime_id (d : DateVal) : toDatetime d = d := by
  cases d <;> rfl

/-- A missing sales cell fails the `>= 0` mask; a present one passes it
precisely when non-negative. -/
theorem salesGe0_iff (r : Row) :
    salesGe0 r = true ↔ ∃ v, r.sales = some v ∧ 0 ≤ v := by
  unfold salesGe0
  cases h : r.sales with
  | none => simp
  | some v => simp

/-! ### C10 — per-column stage guards -/

/-- C10: each cleaning stage is guarded on the presence of its column and is
the identity when the column is absent: no sales column → the imputation and
outlier stages pass the frame through unchanged; no date column → the
date-normalization stage passes it through; no region column → the
normalization stage passes it through. All stages are total functions, so no
error is raised in any of these cases. -/
theorem preprocess_skips_absent_columns (df : Frame) :
    (df.hasSales = false → imputeStage df = df ∧ outlierStage df = df) ∧
    (df.hasDate = false → dateStage df = df) ∧
    (df.hasRegion = false → regionStage df = df) := by
  refine ⟨fun h => ⟨?_, ?_⟩, fun h => ?_, fun h => ?_⟩ <;>
    simp [imputeStage, outlierStage, negFilter, iqrFilter, dateStage,
      dateAssignFrame, dropnaDateFrame, regionStage, h]

/-- Witness for C10 at a concrete one-row frame with no optional columns. -/
theorem preprocess_skips_absent_columns_witness :
    (imputeStage ⟨false, false, false, [⟨.invalid, "P1", none, "X"⟩]⟩ =
      ⟨false, false, false, [⟨.invalid, "P1", none, "X"⟩]⟩ ∧
     outlierStage ⟨false, false, false, [⟨.invalid, "P1", none, "X"⟩]⟩ =
      ⟨false, false, false, [⟨.invalid, "P1", none, "X"⟩]⟩) ∧
    dateStage ⟨false, false, false, [⟨.invalid, "P1", none, "X"⟩]⟩ =
      ⟨false, false, false, [⟨.invalid, "P1", none, "X"⟩]⟩ ∧
    regionStage ⟨false, false, false, [⟨.invalid, "P1", none, "X"⟩]⟩ =
      ⟨false, false, false, [⟨.invalid, "P1", none, "X"⟩]⟩ := by
  have h := preprocess_skips_absent_columns ⟨false, false, false, [⟨.invalid, "P1", none, "X"⟩]⟩
  exact ⟨h.1 rfl, h.2.1 rfl, h.2.2 rfl⟩

/-! ### C7 — temporal split boundary -/

/-- C7: `prepare_model_data` sends every row with `day_of_month ≤ 20`
(including exactly 20) to the training subset and every row with
`day_of_month > 20` (including 21) to the evaluation subset, and together the
two subsets account for every row of the input frame. -/
theorem prepare_model_data_split (df : Frame) :
    (∀ fr ∈ (prepare_model_data df).XTrain, fr.day ≤ 20) ∧
    (∀ fr ∈ (prepare_model_data df).XTest, 20 < fr.day) ∧
    (prepare_model_data df).XTrain.length + (prepare_model_data df).XTest.length
      = df.rows.length := by
  unfold prepare_model_data
  refine ⟨?_, ?_, ?_⟩
  · intro fr hfr
    simp only [List.mem_map, List.mem_filter] at hfr
    obtain ⟨p, ⟨-, hp⟩, rfl⟩ := hfr
    exact of_decide_eq_true hp
  · intro fr hfr
    simp only [List.mem_map, List.mem_filter] at hfr
    obtain ⟨p, ⟨-, hp⟩, rfl⟩ := hfr
    exact of_decide_eq_true hp
  · simp only [List.length_map]
    rw [length_filter_split _ _ _ (fun p => by
      by_cases h : p.1.day ≤ 20
      · simp [h]
      · simp [h]
        omega)]
    simp [featureRows, labels, List.length_zip]

/-- Witness for C7 at a concrete frame with rows on days 5, 20 and 21. -/
theorem prepare_model_data_split_witness :
    (∀ fr ∈ (prepare_model_data ⟨true, true, true,
        [⟨.ts 10 5 2025, "P1", some 10, "N"⟩,
         ⟨.ts 10 20 2025, "P2", some 20, "S"⟩,
         ⟨.ts 10 21 2025, "P1", some 30, "N"⟩]⟩).XTrain, fr.day ≤ 20) ∧
    (∀ fr ∈ (prepare_model_data ⟨true, true, true,
        [⟨.ts 10 5 2025, "P1", some 10, "N"⟩,
         ⟨.ts 10 20 2025, "P2", some 20, "S"⟩,
         ⟨.ts 10 21 2025, "P1", some 30, "N"⟩]⟩).XTest, 20 < fr.day) ∧
    (prepare_model_data ⟨true, true, true,
        [⟨.ts 10 5 2025, "P1", some 10, "N"⟩,
         ⟨.ts 10 20 2025, "P2", some 20, "S"⟩,
         ⟨.ts 10 21 2025, "P1", some 30, "N"⟩]⟩).XTrain.length +
      (prepare_model_data ⟨true, true, true,
        [⟨.ts 10 5 2025, "P1", some 10, "N"⟩,
         ⟨.ts 10 20 2025, "P2", some 20, "S"⟩,
         ⟨.ts 10 21 2025, "P1", some 30, "N"⟩]⟩).XTest.length = 3 :=
  prepare_model_data_split ⟨true, true, true,
    [⟨.ts 10 5 2025, "P1", some 10, "N"⟩,
     ⟨.ts 10 20 2025, "P2", some 20, "S"⟩,
     ⟨.ts 10 21 2025, "P1", some 30, "N"⟩]⟩

/-! ### C9 — cleaned output has no missing sales -/

/-- C9: whenever the sales column is present, every row of the cleaning
pipeline's output carries a present, non-negative sales value. A row whose
sales survive imputation as missing (a product all of whose rows are missing)
is silently removed by the `>= 0` mask of the outlier stage — `NaN >= 0` is
`False` in pandas — and the pipeline, a total function, raises no error for
it. -/
theorem preprocess_no_missing_sales (df : Frame) (h : df.hasSales = true) :
    ∀ r ∈ (preprocess_data df).rows, ∃ v, r.sales = some v ∧ 0 ≤ v := by
  intro r hr
  unfold preprocess_data outlierStage at hr
  set X := dateStage (imputeStage (regionStage df)) with hX
  have hXs : X.hasSales = true := by
    rw [hX, (stage_flags _).2.2.2.2.2.2.2.1,
      (stage_flags _).2.2.2.2.1, (stage_flags _).2.1]
    exact h
  have hNs : (negFilter X).hasSales = true := by
    rw [(stage_flags _).2.2.2.2.2.2.2.2.2.2.1]; exact hXs
  unfold iqrFilter at hr
  rw [if_pos hNs] at hr
  simp only [List.mem_filter] at hr
  have hrN : r ∈ (negFilter X).rows := hr.1
  unfold negFilter at hrN
  rw [if_pos hXs] at hrN
  simp only [List.mem_filter] at hrN
  exact (salesGe0_iff r).mp hrN.2

/-- The C9 witness frame: product "P2" is entirely missing its sales. -/
def D9 : Frame :=
  ⟨true, true, true,
    [⟨.ts 10 1 2025, "P1", some 100, "North"⟩,
     ⟨.ts 10 2 2025, "P2", none, "North"⟩]⟩

/-- Evaluating the pipeline on `D9`: the all-missing "P2" row is silently
dropped by the non-negative mask; the "P1" row survives. -/
theorem preprocess_D9_eval :
    preprocess_data D9 =
      ⟨true, true, true, [⟨.ts 10 1 2025, "P1", some 100, "North"⟩]⟩ := by
  norm_num +decide [preprocess_data, regionStage, imputeStage, dateStage,
    dateAssignFrame, dropnaDateFrame, outlierStage, negFilter, iqrFilter,
    region_mapping, fillRow, groupVals, mean, countMissing, salesGe0,
    toDatetime, isValidDate, quantile, List.insertionSort, List.orderedInsert,
    D9, show Int.toNat 0 = 0 from rfl,
    List.getElem_cons_succ, List.getElem_cons_zero, List.countP, List.countP.go,
    List.filterMap_cons, List.filterMap_nil]

/-- Witness for C9: the row surviving the cleaning of `D9` carries a present
non-negative sales value (and the all-missing "P2" row was dropped without
error). -/
theorem preprocess_no_missing_sales_witness :
    ∃ v, (⟨.ts 10 1 2025, "P1", some 100, "North"⟩ : Row).sales = some v ∧ 0 ≤ v :=
  preprocess_no_missing_sales D9 rfl ⟨.ts 10 1 2025, "P1", some 100, "North"⟩
    (by rw [preprocess_D9_eval]; exact List.mem_singleton.mpr rfl)

/-! ### C3 — outlier rejection order -/

/-- Lower IQR fence `Q1 − 1.5·IQR` over a list of sales values. -/
def iqrLow (vals : List ℚ) : ℚ :=
  quantile vals (1/4) - 3/2 * (quantile vals (3/4) - quantile vals (1/4))

/-- Upper IQR fence `Q3 + 1.5·IQR` over a list of sales values. -/
def iqrHigh (vals : List ℚ) : ℚ :=
  quantile vals (3/4) + 3/2 * (quantile vals (3/4) - quantile vals (1/4))

/-- The spec's outlier-order test frame: sales `[-500, 100, 200, 300, 100000]`. -/
def D3 : Frame :=
  ⟨true, true, true,
    [⟨.ts 10 1 2025, "P1", some (-500), "North"⟩,
     ⟨.ts 10 2 2025, "P1", some 100, "North"⟩,
     ⟨.ts 10 3 2025, "P1", some 200, "North"⟩,
     ⟨.ts 10 4 2025, "P1", some 300, "North"⟩,
     ⟨.ts 10 5 2025, "P1", some 100000, "North"⟩]⟩

/-- C3: the outlier stage keeps exactly the rows that carry a non-negative
sales value lying inside the IQR fences computed over the values remaining
AFTER the negative-sales drop; and on the spec's test input the fences come
from `[100, 200, 300, 100000]` (Q1 = 175, Q3 = 25225), not from the full list
(whose Q1 would be 100), so the surviving sales are `[100, 200, 300]`. -/
theorem outlier_negatives_before_iqr (df : Frame) (h : df.hasSales = true) :
    (∀ r, r ∈ (outlierStage df).rows ↔
        r ∈ df.rows ∧ ∃ v, r.sales = some v ∧ 0 ≤ v ∧
          iqrLow ((df.rows.filter salesGe0).filterMap Row.sales) ≤ v ∧
          v ≤ iqrHigh ((df.rows.filter salesGe0).filterMap Row.sales)) ∧
    (D3.rows.filter salesGe0).filterMap Row.sales = [100, 200, 300, 100000] ∧
    quantile [100, 200, 300, 100000] (1/4) = 175 ∧
    quantile [100, 200, 300, 100000] (3/4) = 25225 ∧
    quantile (D3.rows.filterMap Row.sales) (1/4) ≠
      quantile [100, 200, 300, 100000] (1/4) ∧
    (outlierStage D3).rows.map Row.sales = [some 100, some 200, some 300] := by
  refine ⟨?_, ?_, ?_, ?_, ?_, ?_⟩
  · intro r
    unfold outlierStage negFilter iqrFilter
    rw [if_pos h]
    rw [if_pos (show ({df with rows := df.rows.filter salesGe0} : Frame).hasSales
        = true from h)]
    simp only [List.mem_filter]
    constructor
    · rintro ⟨⟨hmem, hge⟩, hpred⟩
      obtain ⟨v, hv, h0⟩ := (salesGe0_iff r).mp hge
      rw [hv] at hpred
      have hb := of_decide_eq_true hpred
      exact ⟨hmem, v, hv, h0, hb.1, hb.2⟩
    · rintro ⟨hmem, v, hv, h0, hlo, hhi⟩
      refine ⟨⟨hmem, (salesGe0_iff r).mpr ⟨v, hv, h0⟩⟩, ?_⟩
      rw [hv]
      exact decide_eq_true ⟨hlo, hhi⟩
  · decide
  · norm_num [quantile, List.insertionSort, List.orderedInsert,
      show Int.toNat 0 = 0 from rfl, List.getElem_cons_succ, List.getElem_cons_zero]
  · norm_num [quantile, List.insertionSort, List.orderedInsert,
      show Int.toNat 2 = 2 from rfl, List.getElem_cons_succ, List.getElem_cons_zero]
  · norm_num [D3, quantile, List.insertionSort, List.orderedInsert,
      show Int.toNat 0 = 0 from rfl, show Int.toNat 1 = 1 from rfl,
      List.getElem_cons_succ, List.getElem_cons_zero]
  · norm_num +decide [outlierStage, negFilter, iqrFilter, salesGe0, D3,
      quantile, List.insertionSort, List.orderedInsert,
      show Int.toNat 0 = 0 from rfl, show Int.toNat 2 = 2 from rfl,
      List.getElem_cons_succ, List.getElem_cons_zero]

/-- Witness for C3 at the spec's own test frame. -/
theorem outlier_negatives_before_iqr_witness :
    (⟨.ts 10 2 2025, "P1", some 100, "North"⟩ : Row) ∈ (outlierStage D3).rows ∧
    quantile [100, 200, 300, 100000] (1/4) = 175 := by
  have h := outlier_negatives_before_iqr D3 rfl
  refine ⟨(h.1 _).mpr ⟨by decide, 100, rfl, by norm_num, ?_, ?_⟩, h.2.2.1⟩
  · rw [h.2.1]
    norm_num [iqrLow, quantile, List.insertionSort, List.orderedInsert,
      show Int.toNat 0 = 0 from rfl, show Int.toNat 2 = 2 from rfl,
      List.getElem_cons_succ, List.getElem_cons_zero]
  · rw [h.2.1]
    norm_num [iqrHigh, quantile, List.insertionSort, List.orderedInsert,
      show Int.toNat 0 = 0 from rfl, show Int.toNat 2 = 2 from rfl,
      List.getElem_cons_succ, List.getElem_cons_zero]

/-! ### C4 — group-mean imputation -/

/-- Dropping a row whose sales cell is missing does not change the
non-missing sales values of any product group: the "group mean" of pandas
(`x.mean()` skips `NaN`, so the row being filled contributes nothing) equals
the mean over the OTHER rows of the product. -/
theorem groupVals_eraseIdx (rows : List Row) (i : ℕ) (r : Row)
    (hi : rows[i]? = some r) (hmiss : r.sales = none) (pid : String) :
    groupVals (rows.eraseIdx i) pid = groupVals rows pid := by
  induction rows generalizing i with
  | nil => simp at hi
  | cons a t ih =>
      cases i with
      | zero =>
          simp only [List.getElem?_cons_zero, Option.some.injEq] at hi
          subst hi
          simp only [List.eraseIdx_zero, List.tail_cons, groupVals, List.filter_cons]
          split
          · simp [List.filterMap_cons, hmiss]
          · rfl
      | succ n =>
          simp only [List.getElem?_cons_succ] at hi
          simp only [List.eraseIdx_cons_succ, groupVals, List.filter_cons]
          have ihn := ih n hi
          split
          · simp only [List.filterMap_cons]
            cases a.sales <;> simp [groupVals] at ihn ⊢ <;> exact ihn
          · exact ihn

/-- The spec's imputation test frame: product "P1" with sales
`[100, None, 300]`. -/
def D4 : Frame :=
  ⟨true, true, true,
    [⟨.ts 10 1 2025, "P1", some 100, "North"⟩,
     ⟨.ts 10 2 2025, "P1", none, "North"⟩,
     ⟨.ts 10 3 2025, "P1", some 300, "North"⟩]⟩

/-- C4: a row missing its sales value is filled with the arithmetic mean of
the sales of the other rows of the same product that carry a value, computed
over the full dataset as it stands at the imputation stage; and on the spec's
test frame the missing "P1" value fills to `200`. -/
theorem impute_fills_group_mean (df : Frame) (i : ℕ) (r : Row)
    (h : df.hasSales = true) (hi : df.rows[i]? = some r) (hmiss : r.sales = none)
    (hne : groupVals (df.rows.eraseIdx i) r.productId ≠ []) :
    ((imputeStage df).rows[i]? =
      some { r with sales := some (mean (groupVals (df.rows.eraseIdx i) r.productId)) }) ∧
    (imputeStage D4).rows.map Row.sales = [some 100, some 200, some 300] := by
  constructor
  · have hmem : r ∈ df.rows := by
      have := List.getElem?_eq_some.mp hi
      obtain ⟨hlt, hget⟩ := this
      exact hget ▸ List.getElem_mem _
    have hcount : 0 < countMissing df.rows := by
      rw [countMissing, List.countP_pos_iff]
      exact ⟨r, hmem, by simp [hmiss]⟩
    have hvals : groupVals df.rows r.productId =
        groupVals (df.rows.eraseIdx i) r.productId :=
      (groupVals_eraseIdx df.rows i r hi hmiss r.productId).symm
    unfold imputeStage
    rw [if_pos ⟨h, hcount⟩]
    simp only [List.getElem?_map, hi, Option.map_some']
    simp only [fillRow, hmiss, hvals]
    rw [if_neg (by simpa [List.isEmpty_iff] using hne)]
  · norm_num +decide [imputeStage, fillRow, groupVals, mean, countMissing, D4,
      List.countP, List.countP.go, List.filterMap_cons, List.filterMap_nil,
      List.filter_cons, List.filter_nil]

/-- Witness for C4 at the spec's own test frame: the missing middle row of
"P1" fills to the mean `200` of the other rows' `100` and `300`. -/
theorem impute_fills_group_mean_witness :
    ((imputeStage D4).rows[1]? =
      some ⟨.ts 10 2 2025, "P1",
        some (mean (groupVals (D4.rows.eraseIdx 1) "P1")), "North"⟩) ∧
    mean (groupVals (D4.rows.eraseIdx 1) "P1") = 200 := by
  have h := impute_fills_group_mean D4 1 ⟨.ts 10 2 2025, "P1", none, "North"⟩
    rfl (by decide) rfl (by decide)
  refine ⟨h.1, ?_⟩
  have hg : groupVals (D4.rows.eraseIdx 1) "P1" = [100, 300] := by decide
  rw [hg]
  norm_num [mean]

/-! ### C1 — no emptiness check in the Feature/Split Builder -/

/-- A cleaned frame all of whose rows fall on days `≤ 20`, so its evaluation
subset is empty. -/
def D1 : Frame :=
  ⟨true, true, true,
    [⟨.ts 10 5 2025, "P1", some 1000, "North"⟩,
     ⟨.ts 10 20 2025, "P2", some 2000, "South"⟩]⟩

/-- Counterexample to C1: on a cleaned dataset whose evaluation subset
(`day_of_month > 20`) is empty, `prepare_model_data` does NOT fail — the
source defines no `InsufficientDataError` and performs no emptiness check —
but returns the split with the empty evaluation subset, here computed in
full. -/
theorem prepare_model_data_returns_empty_split :
    prepare_model_data D1 =
      ⟨[⟨5, 0, 0⟩, ⟨20, 1, 1⟩], [1000, 2000], [], []⟩ := by
  decide

/-- C1 amended: `prepare_model_data` performs no emptiness check and raises
no error; when every row falls in one half of the `day 20` split it returns
the split with the other subset empty and the full dataset in the occupied
subset. -/
theorem prepare_model_data_no_empty_check (df : Frame) :
    ((∀ r ∈ df.rows, dayOfDate r.date ≤ 20) →
      (prepare_model_data df).XTest = [] ∧
      (prepare_model_data df).XTrain.length = df.rows.length) ∧
    ((∀ r ∈ df.rows, 20 < dayOfDate r.date) →
      (prepare_model_data df).XTrain = [] ∧
      (prepare_model_data df).XTest.length = df.rows.length) := by
  have hmem : ∀ p ∈ (featureRows df).zip (labels df),
      ∃ r ∈ df.rows, p.1.day = dayOfDate r.date := by
    intro p hp
    have h1 : p.1 ∈ featureRows df := (List.of_mem_zip hp).1
    unfold featureRows at h1
    simp only [List.mem_map] at h1
    obtain ⟨r, hr, hfr⟩ := h1
    exact ⟨r, hr, by rw [← hfr]⟩
  constructor
  · intro hall
    unfold prepare_model_data
    constructor
    · simp only [List.map_eq_nil_iff, List.filter_eq_nil_iff]
      intro p hp
      obtain ⟨r, hr, hday⟩ := hmem p hp
      simp [hday, Nat.not_lt.mpr (hall r hr)]
    · simp only [List.length_map]
      rw [List.filter_eq_self.mpr (fun p hp => by
        obtain ⟨r, hr, hday⟩ := hmem p hp
        simp [hday, hall r hr])]
      simp [featureRows, labels, List.length_zip]
  · intro hall
    unfold prepare_model_data
    constructor
    · simp only [List.map_eq_nil_iff, List.filter_eq_nil_iff]
      intro p hp
      obtain ⟨r, hr, hday⟩ := hmem p hp
      simp [hday, Nat.not_le.mpr (hall r hr)]
    · simp only [List.length_map]
      rw [List.filter_eq_self.mpr (fun p hp => by
        obtain ⟨r, hr, hday⟩ := hmem p hp
        simp [hday, hall r hr])]
      simp [featureRows, labels, List.length_zip]

/-- Witness for the amended C1 at the concrete frame `D1` (both rows on days
`≤ 20`): the empty evaluation subset is returned, not an error. -/
theorem prepare_model_data_no_empty_check_witness :
    (prepare_model_data D1).XTest = [] ∧
    (prepare_model_data D1).XTrain.length = D1.rows.length :=
  (prepare_model_data_no_empty_check D1).1 (by decide)

/-! ### C2 — short code lists fail with a generic length mismatch -/

/-- Counterexample to C2: requesting the 5 forecast days with
`region_codes = [0, 1]` (length 2) makes `predict_nov_sales` raise the
pandas length-mismatch `ValueError` from the `pd.DataFrame` constructor, not
an `InsufficientCodesError` — no such exception exists in the repository. -/
theorem predict_nov_sales_short_codes_value_error :
    predict_nov_sales (fun _ => 0) [0, 1] [0, 1, 2, 0, 1] =
      .error .valueErrorLengthMismatch ∧
    predict_nov_sales (fun _ => 0) [0, 1] [0, 1, 2, 0, 1] ≠
      .error .insufficientCodesError := by
  constructor
  · rfl
  · simp [predict_nov_sales]

/-- C2 amended: whenever the supplied region-code or product-code list is
shorter than the 5 requested forecast days, `predict_nov_sales` fails — but
with the generic pandas array-length `ValueError` raised while building the
prediction DataFrame, not with a dedicated `InsufficientCodesError`. -/
theorem predict_nov_sales_short_codes (model : FeatureRow → ℚ)
    (a p : List ℕ) (h : a.length < 5 ∨ p.length < 5) :
    predict_nov_sales model a p = .error .valueErrorLengthMismatch := by
  unfold predict_nov_sales
  rw [if_neg]
  simp only [List.length_take, List.length_cons, List.length_nil, not_and]
  intro h1 h2
  rcases h with h | h <;> omega

/-- Witness for the amended C2 with `region_codes = [0, 1]`. -/
theorem predict_nov_sales_short_codes_witness :
    ([0, 1] : List ℕ).length < 5 ∧
    predict_nov_sales (fun _ => 100) [0, 1] [0, 1, 2, 0, 1] =
      .error .valueErrorLengthMismatch :=
  ⟨by decide, predict_nov_sales_short_codes (fun _ => 100) [0, 1] [0, 1, 2, 0, 1]
    (Or.inl (by decide))⟩

/-! ### C5 — one encoding, two derivations -/

/-- Membership in the running first-appearance accumulator. -/
theorem mem_firstAppearance_foldl (xs : List String) :
    ∀ (acc : List String) (x : String),
      (x ∈ xs.foldl (fun acc x => if x ∈ acc then acc else acc ++ [x]) acc ↔
        x ∈ acc ∨ x ∈ xs) := by
  induction xs with
  | nil => intro acc x; simp
  | cons y t ih =>
      intro acc x
      simp only [List.foldl_cons]
      by_cases hy : y ∈ acc
      · rw [if_pos hy, ih]
        constructor
        · rintro (hx | hx)
          · exact Or.inl hx
          · exact Or.inr (List.mem_cons_of_mem y hx)
        · rintro (hx | hx)
          · exact Or.inl hx
          · rcases List.mem_cons.mp hx with rfl | hx
            · exact Or.inl hy
            · exact Or.inr hx
      · rw [if_neg hy, ih]
        simp only [List.mem_append, List.mem_singleton, List.mem_cons]
        tauto

/-- The first-appearance accumulator never duplicates an element. -/
theorem nodup_firstAppearance_foldl (xs : List String) :
    ∀ acc : List String, acc.Nodup →
      (xs.foldl (fun acc x => if x ∈ acc then acc else acc ++ [x]) acc).Nodup := by
  induction xs with
  | nil => intro acc h; simpa using h
  | cons y t ih =>
      intro acc h
      simp only [List.foldl_cons]
      by_cases hy : y ∈ acc
      · rw [if_pos hy]; exact ih acc h
      · rw [if_neg hy]
        refine ih _ ?_
        simp [List.nodup_append, h, hy]

/-- C5: for every cleaned dataset, the category encoding derived
independently by the driver (`pd.factorize` in `main.py`/`app.py`, whose
assignment is `v ↦ uniques.indexOf v`) agrees with the encoding
`prepare_model_data` uses to build the training feature rows: the `i`-th
feature row carries exactly the driver's codes for the `i`-th row's region
and product, every observed value has a code (it appears in the uniques
list), and the uniques lists are duplicate-free, so the assignment is a
bijection onto `0..k-1` in first-appearance order. -/
theorem encoding_consistent (df : Frame) (i : ℕ) (r : Row)
    (hi : df.rows[i]? = some r) :
    (featureRows df)[i]? = some ⟨dayOfDate r.date,
        (mainAreaUniques df).indexOf r.region,
        (mainProdUniques df).indexOf r.productId⟩ ∧
    r.region ∈ mainAreaUniques df ∧
    r.productId ∈ mainProdUniques df ∧
    (mainAreaUniques df).Nodup ∧
    (mainProdUniques df).Nodup := by
  have hmem : r ∈ df.rows := by
    obtain ⟨hlt, hget⟩ := List.getElem?_eq_some.mp hi
    exact hget ▸ List.getElem_mem _
  refine ⟨?_, ?_, ?_, ?_, ?_⟩
  · unfold featureRows catCode mainAreaUniques mainProdUniques
    simp [List.getElem?_map, hi]
  · unfold mainAreaUniques firstAppearance
    rw [mem_firstAppearance_foldl]
    exact Or.inr (List.mem_map_of_mem Row.region hmem)
  · unfold mainProdUniques firstAppearance
    rw [mem_firstAppearance_foldl]
    exact Or.inr (List.mem_map_of_mem Row.productId hmem)
  · exact nodup_firstAppearance_foldl _ _ List.nodup_nil
  · exact nodup_firstAppearance_foldl _ _ List.nodup_nil

/-- Witness for C5 at the concrete frame `D1`, row 1 ("P2" / "South"). -/
theorem encoding_consistent_witness :
    (featureRows D1)[1]? = some ⟨20,
        (mainAreaUniques D1).indexOf "South",
        (mainProdUniques D1).indexOf "P2"⟩ ∧
    "South" ∈ mainAreaUniques D1 ∧
    "P2" ∈ mainProdUniques D1 ∧
    (mainAreaUniques D1).Nodup ∧
    (mainProdUniques D1).Nodup :=
  encoding_consistent D1 1 ⟨.ts 10 20 2025, "P2", some 2000, "South"⟩ (by decide)

/-! ### C6 — the cleaning pipeline is not idempotent -/

/-- A valid, fully-present dataset with sales `[0, 0, 0, 100, 1000]`. -/
def D6 : Frame :=
  ⟨true, true, true,
    [⟨.ts 10 1 2025, "P1", some 0, "North"⟩,
     ⟨.ts 10 2 2025, "P1", some 0, "North"⟩,
     ⟨.ts 10 3 2025, "P1", some 0, "North"⟩,
     ⟨.ts 10 4 2025, "P1", some 100, "North"⟩,
     ⟨.ts 10 5 2025, "P1", some 1000, "North"⟩]⟩

/-- First pass over `D6`: Q1 = 0, Q3 = 100, fences `[-150, 250]`, so the
`1000` row is dropped and four rows remain. -/
theorem preprocess_D6_once :
    preprocess_data D6 =
      ⟨true, true, true,
        [⟨.ts 10 1 2025, "P1", some 0, "North"⟩,
         ⟨.ts 10 2 2025, "P1", some 0, "North"⟩,
         ⟨.ts 10 3 2025, "P1", some 0, "North"⟩,
         ⟨.ts 10 4 2025, "P1", some 100, "North"⟩]⟩ := by
  norm_num +decide [preprocess_data, regionStage, imputeStage, dateStage,
    dateAssignFrame, dropnaDateFrame, outlierStage, negFilter, iqrFilter,
    region_mapping, fillRow, groupVals, mean, countMissing, salesGe0,
    toDatetime, isValidDate, quantile, List.insertionSort, List.orderedInsert,
    D6, show Int.toNat 3 = 3 from rfl, show Int.toNat 1 = 1 from rfl,
    List.getElem_cons_succ, List.getElem_cons_zero, List.countP, List.countP.go]

/-- Second pass over the first pass's output: the fences are recomputed on
the four surviving values `[0, 0, 0, 100]`, giving Q1 = 0, Q3 = 25 and fences
`[-37.5, 62.5]`, so the `100` row is now dropped as well. -/
theorem preprocess_D6_twice :
    preprocess_data
      ⟨true, true, true,
        [⟨.ts 10 1 2025, "P1", some 0, "North"⟩,
         ⟨.ts 10 2 2025, "P1", some 0, "North"⟩,
         ⟨.ts 10 3 2025, "P1", some 0, "North"⟩,
         ⟨.ts 10 4 2025, "P1", some 100, "North"⟩]⟩ =
      ⟨true, true, true,
        [⟨.ts 10 1 2025, "P1", some 0, "North"⟩,
         ⟨.ts 10 2 2025, "P1", some 0, "North"⟩,
         ⟨.ts 10 3 2025, "P1", some 0, "North"⟩]⟩ := by
  norm_num +decide [preprocess_data, regionStage, imputeStage, dateStage,
    dateAssignFrame, dropnaDateFrame, outlierStage, negFilter, iqrFilter,
    region_mapping, fillRow, groupVals, mean, countMissing, salesGe0,
    toDatetime, isValidDate, quantile, List.insertionSort, List.orderedInsert,
    show Int.toNat 2 = 2 from rfl, show Int.toNat 0 = 0 from rfl,
    List.getElem_cons_succ, List.getElem_cons_zero, List.countP, List.countP.go]

/-- Counterexample to C6: the cleaning pipeline is not idempotent. On `D6`
(sales `[0, 0, 0, 100, 1000]`, no missing / negative / invalid values,
canonical regions) the first pass keeps four rows but the second pass, whose
IQR fences are recomputed over the already-filtered values, drops another
row. -/
theorem preprocess_not_idempotent :
    preprocess_data (preprocess_data D6) ≠ preprocess_data D6 := by
  rw [preprocess_D6_once, preprocess_D6_twice]
  decide

/-- Filtering the rows of a frame by a predicate every row satisfies leaves
the frame unchanged. -/
theorem frame_filter_eq (df : Frame) (p : Row → Bool)
    (h : ∀ r ∈ df.rows, p r = true) :
    ({ df with rows := df.rows.filter p } : Frame) = df := by
  rw [List.filter_eq_self.mpr h]

/-- C6 amended: the pipeline is idempotent only on datasets that are already
fixed points of every stage — canonical region labels, no missing sales, no
invalid dates, no negative sales, and every sales value already inside the
IQR fences computed over the dataset's own values. Such a dataset passes
through unchanged (this is the second, weaker half of the original claim);
in general a second run can drop further rows because the fences are
recomputed over the filtered values, as `D6` shows. -/
theorem preprocess_fixed_of_clean (df : Frame)
    (hreg : ∀ r ∈ df.rows, region_mapping r.region = r.region)
    (hdate : ∀ r ∈ df.rows, isValidDate r.date = true)
    (hsales : ∀ r ∈ df.rows, ∃ v, r.sales = some v ∧ 0 ≤ v)
    (hrange : ∀ r ∈ df.rows, ∀ v, r.sales = some v →
      iqrLow (df.rows.filterMap Row.sales) ≤ v ∧
      v ≤ iqrHigh (df.rows.filterMap Row.sales)) :
    preprocess_data df = df := by
  have h1 : regionStage df = df := by
    unfold regionStage
    by_cases hR : df.hasRegion = true
    · rw [if_pos hR]
      have hmap : df.rows.map (fun r => { r with region := region_mapping r.region })
          = df.rows.map id :=
        List.map_congr_left (fun r hr => by rw [hreg r hr]; rfl)
      rw [hmap, List.map_id]
    · rw [if_neg hR]
  have h2 : imputeStage df = df := by
    unfold imputeStage
    rw [if_neg]
    rintro ⟨-, hpos⟩
    have hz : countMissing df.rows = 0 := by
      rw [countMissing, List.countP_eq_zero]
      intro r hr
      obtain ⟨v, hv, -⟩ := hsales r hr
      simp [hv]
    omega
  have h3a : dateAssignFrame df = df := by
    unfold dateAssignFrame
    by_cases hD : df.hasDate = true
    · rw [if_pos hD]
      have hmap : df.rows.map (fun r => { r with date := toDatetime r.date })
          = df.rows.map id :=
        List.map_congr_left (fun r _ => by rw [toDatetime_id]; rfl)
      rw [hmap, List.map_id]
    · rw [if_neg hD]
  have h3b : dropnaDateFrame df = df := by
    unfold dropnaDateFrame
    by_cases hD : df.hasDate = true
    · rw [if_pos hD, List.filter_eq_self.mpr (fun r hr => hdate r hr)]
    · rw [if_neg hD]
  have h3 : dateStage df = df := by
    unfold dateStage
    rw [h3a, h3b]
  have h4 : negFilter df = df := by
    unfold negFilter
    by_cases hS : df.hasSales = true
    · rw [if_pos hS, List.filter_eq_self.mpr
        (fun r hr => (salesGe0_iff r).mpr (hsales r hr))]
    · rw [if_neg hS]
  have h5 : iqrFilter df = df := by
    unfold iqrFilter
    by_cases hS : df.hasSales = true
    · rw [if_pos hS]
      have hkeep : ∀ r ∈ df.rows, (match r.sales with
          | some v => decide (iqrLow (df.rows.filterMap Row.sales) ≤ v ∧
              v ≤ iqrHigh (df.rows.filterMap Row.sales))
          | none => false) = true := by
        intro r hr
        obtain ⟨v, hv, -⟩ := hsales r hr
        rw [hv]
        exact decide_eq_true ⟨(hrange r hr v hv).1, (hrange r hr v hv).2⟩
      exact frame_filter_eq df _ (fun r hr => hkeep r hr)
    · rw [if_neg hS]
  show outlierStage (dateStage (imputeStage (regionStage df))) = df
  rw [h1, h2, h3]
  show iqrFilter (negFilter df) = df
  rw [h4, h5]

/-- Witness for the amended C6 at a concrete one-row clean frame. -/
theorem preprocess_fixed_of_clean_witness :
    preprocess_data ⟨true, true, true, [⟨.ts 10 1 2025, "P1", some 100, "North"⟩]⟩ =
      ⟨true, true, true, [⟨.ts 10 1 2025, "P1", some 100, "North"⟩]⟩ := by
  refine preprocess_fixed_of_clean _ (by decide) (by decide) ?_ ?_
  · intro r hr
    simp only [List.mem_singleton] at hr
    subst hr
    exact ⟨100, rfl, by norm_num⟩
  · intro r hr v hv
    simp only [List.mem_singleton] at hr
    subst hr
    simp only [Option.some.injEq] at hv
    subst hv
    constructor <;>
      norm_num [iqrLow, iqrHigh, quantile, List.insertionSort,
        List.orderedInsert, List.filterMap_cons, List.filterMap_nil,
        show Int.toNat 0 = 0 from rfl]

/-! ### C8 — the pipeline never mutates its input frame -/

/-- C8: replaying the body of `preprocess_data` over the Python object heap —
`df.copy()` allocates a fresh object, the three column assignments write in
place to that copy, and each mask/dropna rebinding allocates a further fresh
object — the caller's `df` object is untouched: the heap cell of the input
still holds its original value, and the returned reference points to a NEW
object holding the cleaned value of the ORIGINAL input. Had line 20 of
`data_preprocessor.py` aliased (`df_clean = df`) instead of copied, the
column writes would have hit the input's cell and the first conjunct would
fail. -/
theorem preprocess_no_input_mutation (h0 : List Frame) (df : ℕ)
    (hdf : df < h0.length) :
    (preprocessProg h0 df).1[df]? = h0[df]? ∧
    hGet (preprocessProg h0 df).1 (preprocessProg h0 df).2 =
      preprocess_data (hGet h0 df) := by
  constructor
  · simp only [preprocessProg, alloc, hSet, hGet]
    simp [List.getElem?_set, List.getElem?_append, List.length_set,
      List.length_append, hdf, Nat.ne_of_gt hdf, Nat.lt_succ_of_lt hdf]
  · simp only [preprocessProg, alloc, hSet, hGet]
    simp [List.getD_eq_getElem?_getD, List.getElem?_concat_length,
      List.getElem?_set, List.length_set, List.length_append,
      List.getElem_append_right, Nat.le_add_right, Nat.add_sub_cancel_left,
      List.getElem_cons_succ, List.getElem_cons_zero,
      preprocess_data, outlierStage, dateStage]

/-- Witness for C8: a one-frame heap; the input cell at reference 0 is
unchanged and the returned reference holds the cleaned frame. -/
theorem preprocess_no_input_mutation_witness :
    (preprocessProg [⟨true, true, true, [⟨.ts 10 1 2025, "P1", some 5, "North"⟩]⟩] 0).1[0]? =
      [(⟨true, true, true, [⟨.ts 10 1 2025, "P1", some 5, "North"⟩]⟩ : Frame)][0]? ∧
    hGet (preprocessProg [⟨true, true, true, [⟨.ts 10 1 2025, "P1", some 5, "North"⟩]⟩] 0).1
        (preprocessProg [⟨true, true, true, [⟨.ts 10 1 2025, "P1", some 5, "North"⟩]⟩] 0).2 =
      preprocess_data (hGet [⟨true, true, true, [⟨.ts 10 1 2025, "P1", some 5, "North"⟩]⟩] 0) :=
  preprocess_no_input_mutation [⟨true, true, true, [⟨.ts 10 1 2025, "P1", some 5, "North"⟩]⟩] 0
    (by decide)

end DataMind
